import Mathlib

/-!
Verification of the core concurrent subsystems of the ModuWorks
personal-productivity application (src/ModuWorks.py and
src/modu_works_v_1_3_1_full.py): the audio capture pipeline
(record_audio_menu with its audio_writer consumer thread), the reminder
scheduler (reminder_worker and manage_reminder), the WAV-to-MP3
conversion step (convert_wav_to_mp3), and the password hash/verify pair
(hash_password / verify_password).

Embedding conventions: state that the Python code keeps in shared
objects (queue.Queue, threading.Event, the sqlite notes table) is made
explicit; thread interleavings are lists of events; sqlite REAL
timestamps are modelled by integers, since only their linear order is
used by the code; calls into external libraries (hashlib.sha256) are
parameters of the embedded functions.
-/

/-- One fixed-size chunk of captured audio: the byte buffer a single
stream.read(CHUNK) call returns and that frames_queue carries
(record_audio_menu, src/ModuWorks.py lines 602-603). -/
abbrev Frame := List Nat

/-- The shared state of the capture pipeline seen by the audio_writer
consumer thread (src/ModuWorks.py lines 557-579): the FIFO contents of
frames_queue, the frames already appended to the WAV container by
wf.writeframes, and the stop_event flag. -/
structure WriterState where
  queue : List Frame
  written : List Frame
  stopped : Bool
deriving DecidableEq

/-- One atomic step of the capture pipeline interleaving:
the producer enqueues a frame (frames_queue.put(data), line 603), the
audio_writer runs one loop iteration (lines 567-573), or the stop
event is set (stop_event.set(), lines 598 and 614). -/
inductive CaptureEvent
  | enq (f : Frame)
  | writeStep
  | setStop
deriving DecidableEq

/-- Effect of one CaptureEvent on the shared writer state. A writeStep
with a non-empty queue models frames_queue.get succeeding followed by
wf.writeframes(data); with an empty queue it models the queue.Empty
timeout branch, which just continues the loop (lines 568-573). -/
def wStep (s : WriterState) : CaptureEvent → WriterState
  | CaptureEvent.enq f => { s with queue := s.queue ++ [f] }
  | CaptureEvent.writeStep =>
    match s.queue with
    | [] => s
    | f :: rest => { s with queue := rest, written := s.written ++ [f] }
  | CaptureEvent.setStop => { s with stopped := true }

/-- Initial capture state: frames_queue = queue.Queue() empty, nothing
written, stop_event clear (lines 557-558). -/
def initWriterState : WriterState := ⟨[], [], false⟩

/-- Run an arbitrary interleaving of producer puts, writer iterations
and stop signals from a given state. -/
def wRun (s : WriterState) (es : List CaptureEvent) : WriterState :=
  es.foldl wStep s

/-- The frames enqueued by the producer over an interleaving, in
enqueue order. -/
def enqueuedOf : List CaptureEvent → List Frame
  | [] => []
  | CaptureEvent.enq f :: es => f :: enqueuedOf es
  | CaptureEvent.writeStep :: es => enqueuedOf es
  | CaptureEvent.setStop :: es => enqueuedOf es

/-- The audio_writer loop after stop_event is set and the producer has
stopped: `while not stop_event.is_set() or not frames_queue.empty()`
keeps popping and writing frames until the queue is empty, then exits
and the file is closed (src/ModuWorks.py lines 567-578). The first
argument is the remaining queue, the second the frames already written;
the result is the frame sequence in the finalized file. -/
def audio_writer_drain : List Frame → List Frame → List Frame
  | [], written => written
  | f :: rest, written => audio_writer_drain rest (written ++ [f])

/-- A row of the sqlite notes table as the reminder subsystem sees it:
id (primary key), user_id, title, and the nullable REAL column
reminder_time (init_db, src/ModuWorks.py lines 97-108), with the
timestamp modelled by an integer. -/
structure Note where
  id : Nat
  user_id : Nat
  title : String
  reminder_time : Option Int
deriving DecidableEq

/-- The WHERE clause of the due-reminder query
(`user_id=? AND reminder_time IS NOT NULL AND reminder_time < ?`,
src/ModuWorks.py lines 483-486). -/
def isDue (uid : Nat) (now : Int) (n : Note) : Bool :=
  n.user_id == uid &&
    (match n.reminder_time with
     | some t => decide (t < now)
     | none => false)

/-- The due-reminder query of reminder_worker: SELECT id, title FROM
notes WHERE user_id=? AND reminder_time IS NOT NULL AND
reminder_time < now, fetched all at once (cur.fetchall, line 488). -/
def get_due_reminders (uid : Nat) (now : Int) (notes : List Note) :
    List (Nat × String) :=
  (notes.filter (isDue uid now)).map (fun n => (n.id, n.title))

/-- UPDATE notes SET reminder_time=NULL WHERE id=?
(src/ModuWorks.py line 495). -/
def clearReminder (noteId : Nat) (notes : List Note) : List Note :=
  notes.map (fun n =>
    if n.id = noteId then { n with reminder_time := none } else n)

/-- The for loop of reminder_worker over the fetched due reminders
(src/ModuWorks.py lines 490-496): for each (id, title) pair, print the
notification, then clear that note's reminder_time and commit before
moving to the next due reminder. Returns the emitted notifications and
the notes table after the loop. -/
def notifyAndClear : List (Nat × String) → List Note →
    List (Nat × String) × List Note
  | [], store => ([], store)
  | (nid, title) :: rest, store =>
    let store1 := clearReminder nid store
    let r := notifyAndClear rest store1
    ((nid, title) :: r.1, r.2)

/-- One poll cycle of reminder_worker after the signal check: query the
due reminders at time now, then notify and clear each in turn
(src/ModuWorks.py lines 478-498). -/
def reminderCycle (uid : Nat) (now : Int) (store : List Note) :
    List (Nat × String) × List Note :=
  notifyAndClear (get_due_reminders uid now store) store

/-- The control messages carried by REMINDER_QUEUE: manage_reminder
puts {"type": "refresh"} (line 457), main_menu puts
{"type": "terminate"} on logout or exit (lines 762 and 767). -/
inductive Signal
  | refresh
  | terminate
deriving DecidableEq

/-- UPDATE notes SET reminder_time=? WHERE id=?
(manage_reminder, src/ModuWorks.py line 453). -/
def setReminderStore (noteId : Nat) (t : Option Int) (notes : List Note) :
    List Note :=
  notes.map (fun n =>
    if n.id = noteId then { n with reminder_time := t } else n)

/-- Outcome of the set-reminder path of manage_reminder: the notes
table afterwards, the signals put on REMINDER_QUEUE, and whether the
new time was accepted. -/
structure ReminderSetResult where
  store : List Note
  signals : List Signal
  accepted : Bool
deriving DecidableEq

/-- The set branch of manage_reminder (src/ModuWorks.py lines 445-458)
with the input already parsed to a timestamp: if the parsed timestamp
is ≤ time.time() a ValueError is raised and caught, so the UPDATE, the
commit and the REMINDER_QUEUE.put of the refresh signal are all
skipped; otherwise the reminder is stored and a refresh is enqueued. -/
def manage_reminder_set (now parsed : Int) (noteId : Nat)
    (store : List Note) : ReminderSetResult :=
  if parsed ≤ now then ⟨store, [], false⟩
  else ⟨setReminderStore noteId (some parsed) store, [Signal.refresh], true⟩

/-- Signals whose REMINDER_QUEUE.put happened at absolute time ≤ t are
visible in the queue at a check performed at time t, in put order. -/
def arrivedBy (t : Nat) (enqs : List (Nat × Signal)) : List Signal :=
  (enqs.filter (fun e => decide (e.1 ≤ t))).map (fun e => e.2)

/-- The puts that have not yet happened at time t. -/
def notYetArrived (t : Nat) (enqs : List (Nat × Signal)) :
    List (Nat × Signal) :=
  enqs.filter (fun e => decide (t < e.1))

/-- Observable timing behaviour of the reminder_worker loop: the
absolute times at which the due-reminder query runs, and the time at
which the loop exits via the terminate break, if it does. -/
structure SchedTrace where
  queryTimes : List Nat
  exitTime : Option Nat
deriving DecidableEq

/-- The timing skeleton of the reminder_worker loop (src/ModuWorks.py
lines 466-499), with time in seconds and a cycle budget as fuel. Each
cycle at absolute time `time`: the signal check pops at most one item
from REMINDER_QUEUE (lines 471-476); a terminate item breaks the loop;
a refresh item is a pass and any other cycle proceeds to the
due-reminder query at the current time, after which time.sleep(10) runs
unconditionally (line 499), so the next cycle starts 10 seconds later.
`sigQueue` is the queue contents at this check; `enqs` are future puts,
tagged with the absolute time of the put. -/
def reminder_worker : Nat → Nat → List Signal → List (Nat × Signal) →
    SchedTrace
  | 0, _, _, _ => ⟨[], none⟩
  | fuel + 1, time, sigQueue, enqs =>
    let queue1 := sigQueue ++ arrivedBy time enqs
    let enqs1 := notYetArrived time enqs
    if queue1.head? = some Signal.terminate then ⟨[], some time⟩
    else
      let t := reminder_worker fuel (time + 10) queue1.tail enqs1
      ⟨time :: t.queryTimes, t.exitTime⟩

/-- The first due-reminder query strictly after time t in a trace. -/
def firstQueryAfter (t : Nat) (tr : SchedTrace) : Option Nat :=
  tr.queryTimes.find? (fun q => decide (t < q))

/-- The pause and stop flags of a capture session: the threading.Event
objects paused and stop_event (src/ModuWorks.py lines 558-559). -/
structure CaptureFlags where
  paused : Bool
  stopped : Bool
deriving DecidableEq

/-- What one iteration of the producer loop does to the outside world:
how many blocking stream.read calls it makes, which frames it puts on
frames_queue, and whether it slept instead. -/
structure ProducerAction where
  deviceReads : Nat
  enqueued : List Frame
  slept : Bool
deriving DecidableEq

/-- The command handling at the top of each producer-loop iteration
(src/ModuWorks.py lines 589-598): a nonempty input line equal to P
(case-insensitively) toggles the paused flag, S sets stop_event, and
anything else is ignored; cmd = none models get_input_non_blocking
returning None. -/
def applyCmd (s : CaptureFlags) (cmd : Option String) : CaptureFlags :=
  match cmd with
  | none => s
  | some c =>
    if c = "" then s
    else if c.toUpper = "P" then { s with paused := !s.paused }
    else if c.toUpper = "S" then { s with stopped := true }
    else s

/-- One iteration of the producer loop body of record_audio_menu
(src/ModuWorks.py lines 587-605): after the command check, if the
paused flag is clear the producer performs the blocking
stream.read(CHUNK) — whose result is the data argument — and puts the
returned frame on frames_queue; if the flag is set it performs
time.sleep(0.1) instead and re-checks on the next iteration (the
v1.3.1 revision, src/modu_works_v_1_3_1_full.py lines 239-247, sleeps
0.05 with the identical branch structure). -/
def producerIter (s : CaptureFlags) (cmd : Option String) (data : Frame) :
    CaptureFlags × ProducerAction :=
  let s1 := applyCmd s cmd
  if s1.paused = false then (s1, ⟨1, [data], false⟩)
  else (s1, ⟨0, [], true⟩)

/-- Availability of the conversion collaborators: whether pydub was
imported (AudioSegment is not None, src/ModuWorks.py lines 26-33),
whether FFmpeg or Libav is on PATH (its absence surfaces as
FileNotFoundError inside pydub), and whether the transcoder completes
without raising. -/
structure ConvEnv where
  pydubAvailable : Bool
  ffmpegAvailable : Bool
  exportOk : Bool
deriving DecidableEq

/-- The externally visible actions of convert_wav_to_mp3. -/
inductive ConvStep
  | fromWav
  | exportMp3
  | unlinkWav
  | reportFailure
  | reportSuccess
deriving DecidableEq

/-- convert_wav_to_mp3 (src/ModuWorks.py lines 510-528) as the sequence
of actions it performs in the given environment: a missing pydub
returns early; AudioSegment.from_wav raises FileNotFoundError when
FFmpeg is absent; a transcoder error raises during export; only after a
successful export is os.unlink(wav_path) executed. Each raise is caught
by an except clause that prints a failure message and skips the rest of
the try body, so the unlink is skipped too. The inline conversion
branch of the v1.3.1 revision (src/modu_works_v_1_3_1_full.py lines
262-270) has the same from_wav, export, unlink order inside one
try/except. -/
def convert_wav_to_mp3 (env : ConvEnv) : List ConvStep :=
  if env.pydubAvailable = false then [ConvStep.reportFailure]
  else if env.ffmpegAvailable = false then
    [ConvStep.fromWav, ConvStep.reportFailure]
  else if env.exportOk = false then
    [ConvStep.fromWav, ConvStep.exportMp3, ConvStep.reportFailure]
  else
    [ConvStep.fromWav, ConvStep.exportMp3, ConvStep.unlinkWav,
      ConvStep.reportSuccess]

/-- hash_password (src/ModuWorks.py lines 134-137): the fresh salt
produced by secrets.token_hex(16) is a parameter, as is the external
hashlib.sha256(...).hexdigest() function; the stored hash is the sha256
hex digest of the salt concatenated with the password. Returns the pair
(pw_hash, salt). -/
def hash_password (sha256hex : String → String) (salt password : String) :
    String × String :=
  (sha256hex (salt ++ password), salt)

/-- verify_password (src/ModuWorks.py lines 139-141): recompute the
salted hash of the attempt and compare it with the stored hash via
secrets.compare_digest, a timing-safe string equality. -/
def verify_password (sha256hex : String → String)
    (stored_hash salt password_attempt : String) : Bool :=
  let attempt_hash := sha256hex (salt ++ password_attempt)
  stored_hash == attempt_hash

theorem wRun_content (es : List CaptureEvent) :
    ∀ s : WriterState,
      (wRun s es).written ++ (wRun s es).queue =
        s.written ++ (s.queue ++ enqueuedOf es) := by
  induction es with
  | nil => intro s; simp [wRun, enqueuedOf]
  | cons e es ih =>
    intro s
    have hcons : wRun s (e :: es) = wRun (wStep s e) es := rfl
    rw [hcons]
    cases e with
    | enq f =>
      rw [ih]
      simp [wStep, enqueuedOf]
    | writeStep =>
      rcases s with ⟨q, w, st⟩
      cases q with
      | nil =>
        rw [ih]
        simp [wStep, enqueuedOf]
      | cons f rest =>
        rw [ih]
        simp [wStep, enqueuedOf]
    | setStop =>
      rw [ih]
      simp [wStep, enqueuedOf]

theorem audio_writer_drain_eq (q : List Frame) :
    ∀ w : List Frame, audio_writer_drain q w = w ++ q := by
  induction q with
  | nil => intro w; simp [audio_writer_drain]
  | cons f rest ih =>
    intro w
    rw [audio_writer_drain, ih]
    simp

/-- Claim C1: for every recording session and every interleaving of
producer puts, writer iterations and stop signals, draining the queue
after stop (the audio_writer exit condition is stop set AND queue
empty) makes the finalized file contain exactly the enqueued frames:
no truncation and no duplication. -/
theorem audio_writer_stop_flush (es : List CaptureEvent) :
    audio_writer_drain (wRun initWriterState es).queue
        (wRun initWriterState es).written = enqueuedOf es := by
  rw [audio_writer_drain_eq]
  simpa [initWriterState] using wRun_content es initWriterState

/-- Claim C3: for every interleaving of enqueues and writer steps, the
frames written so far followed by the frames still queued equal the
full enqueue-order sequence; in particular the written sequence is
always an initial segment of the enqueue order, so the consumer appends
frames to the container in exactly the order the producer enqueued
them, with no reordering. -/
theorem audio_writer_fifo (es : List CaptureEvent) :
    (wRun initWriterState es).written ++ (wRun initWriterState es).queue =
      enqueuedOf es := by
  simpa [initWriterState] using wRun_content es initWriterState

theorem notifyAndClear_fst (due : List (Nat × String)) :
    ∀ store : List Note, (notifyAndClear due store).1 = due := by
  induction due with
  | nil => intro store; rfl
  | cons p rest ih =>
    intro store
    rcases p with ⟨nid, title⟩
    simp [notifyAndClear, ih]

theorem clearReminder_cleared (nid : Nat) (store : List Note) :
    ∀ n ∈ clearReminder nid store, n.id = nid → n.reminder_time = none := by
  intro n hn hid
  simp only [clearReminder, List.mem_map] at hn
  obtain ⟨m, hm, hEq⟩ := hn
  by_cases h : m.id = nid
  · rw [if_pos h] at hEq
    rw [← hEq]
  · rw [if_neg h] at hEq
    subst hEq
    exact absurd hid h

theorem clearReminder_preserves (nid m : Nat) (store : List Note)
    (h : ∀ n ∈ store, n.id = nid → n.reminder_time = none) :
    ∀ n ∈ clearReminder m store, n.id = nid → n.reminder_time = none := by
  intro n hn hid
  simp only [clearReminder, List.mem_map] at hn
  obtain ⟨x, hx, hEq⟩ := hn
  by_cases hm : x.id = m
  · rw [if_pos hm] at hEq
    rw [← hEq]
  · rw [if_neg hm] at hEq
    subst hEq
    exact h x hx hid

theorem notifyAndClear_preserves (due : List (Nat × String)) (nid : Nat) :
    ∀ store : List Note,
      (∀ n ∈ store, n.id = nid → n.reminder_time = none) →
      ∀ n ∈ (notifyAndClear due store).2, n.id = nid →
        n.reminder_time = none := by
  induction due with
  | nil => intro store h; simpa [notifyAndClear] using h
  | cons p rest ih =>
    intro store h
    rcases p with ⟨m, title⟩
    simp only [notifyAndClear]
    exact ih (clearReminder m store) (clearReminder_preserves nid m store h)

theorem notifyAndClear_clears (due : List (Nat × String)) (nid : Nat)
    (title : String) :
    ∀ store : List Note, (nid, title) ∈ due →
      ∀ n ∈ (notifyAndClear due store).2, n.id = nid →
        n.reminder_time = none := by
  induction due with
  | nil => intro store h; simp at h
  | cons p rest ih =>
    intro store hmem
    rcases p with ⟨m, t⟩
    rcases List.mem_cons.mp hmem with heq | htail
    · have hm : m = nid := by
        have := congrArg Prod.fst heq
        simpa using this.symm
      subst hm
      simp only [notifyAndClear]
      exact notifyAndClear_preserves rest m (clearReminder m store)
        (clearReminder_cleared m store)
    · simp only [notifyAndClear]
      exact ih (clearReminder m store) htail

theorem isDue_iff (uid : Nat) (now : Int) (n : Note) :
    isDue uid now n = true ↔
      n.user_id = uid ∧ ∃ t, n.reminder_time = some t ∧ t < now := by
  rcases n with ⟨i, u, ti, rt⟩
  cases rt with
  | none => simp [isDue]
  | some t => simp [isDue]

theorem mem_get_due (uid : Nat) (now : Int) (notes : List Note)
    (nid : Nat) (title : String) :
    (nid, title) ∈ get_due_reminders uid now notes ↔
      ∃ n, n ∈ notes ∧ isDue uid now n = true ∧ n.id = nid ∧
        n.title = title := by
  constructor
  · intro h
    simp only [get_due_reminders, List.mem_map] at h
    obtain ⟨n, hn, hEq⟩ := h
    rw [List.mem_filter] at hn
    have h1 : n.id = nid := by
      have := congrArg Prod.fst hEq
      simpa using this
    have h2 : n.title = title := by
      have := congrArg Prod.snd hEq
      simpa using this
    exact ⟨n, hn.1, hn.2, h1, h2⟩
  · rintro ⟨n, hn, hdue, hid, htitle⟩
    simp only [get_due_reminders, List.mem_map]
    refine ⟨n, ?_, ?_⟩
    · rw [List.mem_filter]
      exact ⟨hn, hdue⟩
    · rw [hid, htitle]

/-- Claim C2: once reminder_worker surfaces a due reminder it clears
that note's reminder_time to null (and commits) before the next due
reminder is processed, so after the cycle every note with the surfaced
id has a null reminder_time, and no later poll cycle, at any time,
surfaces that note id again. -/
theorem reminder_fires_at_most_once (uid : Nat) (now now2 : Int)
    (store : List Note) (nid : Nat) (title : String)
    (hmem : (nid, title) ∈ (reminderCycle uid now store).1) :
    ((reminderCycle uid now store).2.all
        (fun n => n.id != nid || n.reminder_time == none)) = true ∧
    ((reminderCycle uid now2 (reminderCycle uid now store).2).1.all
        (fun p => p.1 != nid)) = true := by
  have hdue : (nid, title) ∈ get_due_reminders uid now store := by
    simpa [reminderCycle, notifyAndClear_fst] using hmem
  have hcleared : ∀ n ∈ (reminderCycle uid now store).2, n.id = nid →
      n.reminder_time = none := by
    simp only [reminderCycle]
    exact notifyAndClear_clears _ nid title store hdue
  constructor
  · rw [List.all_eq_true]
    intro n hn
    by_cases h : n.id = nid
    · have hnone := hcleared n hn h
      simp [h, hnone]
    · simp [h]
  · rw [List.all_eq_true]
    intro p hp
    rw [show (reminderCycle uid now2 (reminderCycle uid now store).2).1 =
        get_due_reminders uid now2 (reminderCycle uid now store).2 from
        notifyAndClear_fst _ _] at hp
    rcases p with ⟨a, b⟩
    by_cases h : a = nid
    · subst h
      rw [mem_get_due] at hp
      obtain ⟨n, hn, hdue2, hid, _⟩ := hp
      rw [isDue_iff] at hdue2
      obtain ⟨_, t, hrt, _⟩ := hdue2
      have hnone := hcleared n hn hid
      rw [hnone] at hrt
      exact absurd hrt (by simp)
    · simp [h]

theorem reminder_fires_at_most_once_witness :
    ((reminderCycle 7 10 [Note.mk 1 7 "a" (some 5)]).2.all
        (fun n => n.id != 1 || n.reminder_time == none)) = true ∧
    ((reminderCycle 7 100 (reminderCycle 7 10 [Note.mk 1 7 "a" (some 5)]).2).1.all
        (fun p => p.1 != 1)) = true :=
  reminder_fires_at_most_once 7 10 100 [Note.mk 1 7 "a" (some 5)] 1 "a"
    (by decide)

/-- Claim C4 counterexample: the due-reminder query uses the strict
comparison reminder_time < now, so a note whose reminder timestamp
equals now is NOT returned in that cycle, contradicting the claim that
every note with reminder_time ≤ now is surfaced. -/
theorem reminder_query_boundary_cex :
    (100 : Int) ≤ 100 ∧
    get_due_reminders 1 100 [Note.mk 1 1 "a" (some 100)] = [] ∧
    (reminderCycle 1 100 [Note.mk 1 1 "a" (some 100)]).1 = [] := by
  decide

/-- Claim C4 (amended): in every poll cycle the query returns exactly
the notes of the active user whose reminder_time is non-null and
strictly less than now; a reminder whose timestamp equals now is not
due in that cycle and is surfaced only in a later cycle once now
exceeds it. -/
theorem get_due_reminders_iff (uid : Nat) (now : Int) (notes : List Note)
    (nid : Nat) (title : String) :
    (nid, title) ∈ get_due_reminders uid now notes ↔
      ∃ n, n ∈ notes ∧ n.id = nid ∧ n.title = title ∧ n.user_id = uid ∧
        ∃ t, n.reminder_time = some t ∧ t < now := by
  rw [mem_get_due]
  constructor
  · rintro ⟨n, hn, hdue, hid, htitle⟩
    rw [isDue_iff] at hdue
    exact ⟨n, hn, hid, htitle, hdue.1, hdue.2⟩
  · rintro ⟨n, hn, hid, htitle, huid, t, hrt, hlt⟩
    exact ⟨n, hn, (isDue_iff uid now n).mpr ⟨huid, t, hrt, hlt⟩, hid, htitle⟩

/-- Claim C8: when manage_reminder parses a timestamp that is less than
or equal to the current time, the ValueError raised before the UPDATE
leaves the notes table unchanged and enqueues no refresh signal: the
set attempt is rejected. -/
theorem manage_reminder_rejects_past (now parsed : Int) (noteId : Nat)
    (store : List Note) (h : parsed ≤ now) :
    manage_reminder_set now parsed noteId store = ⟨store, [], false⟩ := by
  simp [manage_reminder_set, h]

theorem manage_reminder_rejects_past_witness :
    manage_reminder_set 5 5 1 [Note.mk 1 7 "a" none] =
      ⟨[Note.mk 1 7 "a" none], [], false⟩ :=
  manage_reminder_rejects_past 5 5 1 [Note.mk 1 7 "a" none] (by decide)

theorem mem_arrivedBy (t : Nat) (enqs : List (Nat × Signal)) :
    ∀ s ∈ arrivedBy t enqs, ∃ e ∈ enqs, e.2 = s := by
  intro s hs
  simp only [arrivedBy, List.mem_map, List.mem_filter] at hs
  obtain ⟨e, ⟨he, _⟩, hEq⟩ := hs
  exact ⟨e, he, hEq⟩

/-- Claim C5 counterexample: a Refresh put on REMINDER_QUEUE at time 3,
while the scheduler is inside the unconditional time.sleep(10) that
started at time 0, does not shorten the wait: the next due-reminder
query happens at time 10, exactly as it does with no Refresh at all. -/
theorem refresh_no_shorten_cex :
    firstQueryAfter 3 (reminder_worker 3 0 [] [(3, Signal.refresh)]) =
      firstQueryAfter 3 (reminder_worker 3 0 [] []) ∧
    firstQueryAfter 3 (reminder_worker 3 0 [] [(3, Signal.refresh)]) =
      some 10 := by
  decide

/-- Claim C5 (amended): a dequeued Refresh is a pass and the scheduler
proceeds to the due-reminder query in that same cycle, but the sleep is
unconditional, so Refresh signals never change the query times: for
every budget, start time and schedule consisting only of Refresh
signals, the query times equal those of a run with no signals at all;
in particular a Refresh enqueued during a sleep does not shorten the
wait until the next query. -/
theorem refresh_never_shortens (fuel : Nat) :
    ∀ (time : Nat) (sigQueue : List Signal) (enqs : List (Nat × Signal)),
      (∀ s ∈ sigQueue, s = Signal.refresh) →
      (∀ e ∈ enqs, e.2 = Signal.refresh) →
      (reminder_worker fuel time sigQueue enqs).queryTimes =
        (reminder_worker fuel time [] []).queryTimes := by
  induction fuel with
  | zero => intro time q e _ _; rfl
  | succ fuel ih =>
    intro time sigQueue enqs hq he
    have hall : ∀ s ∈ sigQueue ++ arrivedBy time enqs,
        s = Signal.refresh := by
      intro s hs
      rcases List.mem_append.mp hs with h | h
      · exact hq s h
      · obtain ⟨e, hmem, hEq⟩ := mem_arrivedBy time enqs s h
        rw [← hEq]
        exact he e hmem
    have he1 : ∀ e ∈ notYetArrived time enqs, e.2 = Signal.refresh := by
      intro e hmem
      simp only [notYetArrived, List.mem_filter] at hmem
      exact he e hmem.1
    have hnoterm : ¬ ((sigQueue ++ arrivedBy time enqs).head? =
        some Signal.terminate) := by
      cases hc : sigQueue ++ arrivedBy time enqs with
      | nil => simp
      | cons s rest =>
        have hs : s = Signal.refresh := hall s (hc ▸ List.mem_cons_self s rest)
        simp [hs]
    have htail : ∀ s ∈ (sigQueue ++ arrivedBy time enqs).tail,
        s = Signal.refresh := by
      intro s hs
      exact hall s (List.mem_of_mem_tail hs)
    simp only [reminder_worker]
    rw [if_neg hnoterm]
    rw [if_neg (by simp [arrivedBy] : ¬ ((([] : List Signal) ++
        arrivedBy time ([] : List (Nat × Signal))).head? =
        some Signal.terminate))]
    simp only [List.cons.injEq, true_and]
    have h1 := ih (time + 10) ((sigQueue ++ arrivedBy time enqs).tail)
      (notYetArrived time enqs) htail he1
    rw [h1]
    have h2 : ([] : List Signal) ++ arrivedBy time ([] : List (Nat × Signal))
        = [] := by simp [arrivedBy]
    rw [h2]
    have h3 : notYetArrived time ([] : List (Nat × Signal)) = [] := by
      simp [notYetArrived]
    rw [h3]
    rfl

theorem refresh_never_shortens_witness :
    (reminder_worker 2 0 [Signal.refresh] [(5, Signal.refresh)]).queryTimes =
      (reminder_worker 2 0 [] []).queryTimes :=
  refresh_never_shortens 2 0 [Signal.refresh] [(5, Signal.refresh)]
    (by decide) (by decide)

/-- Claim C6 counterexample: the signal check pops at most one item of
REMINDER_QUEUE per cycle, so with three Refresh items queued ahead of
the Terminate the scheduler only exits at time 30, which is not within
two 10-second check intervals of the enqueue at time 0. -/
theorem terminate_delayed_cex :
    (reminder_worker 5 0
        [Signal.refresh, Signal.refresh, Signal.refresh, Signal.terminate]
        []).exitTime = some 30 ∧ ¬ (30 ≤ 2 * 10) := by
  decide

/-- Claim C6 (amended): the scheduler pops at most one signal item per
cycle, so a Terminate with k items ahead of it in REMINDER_QUEUE causes
the loop to exit exactly at the k-th later cycle, 10·k seconds after
the first check; it exits within one cycle only when the Terminate is
at the head of the queue. -/
theorem terminate_exit_position (k : Nat) :
    ∀ (fuel time : Nat), k < fuel →
      (reminder_worker fuel time
          (List.replicate k Signal.refresh ++ [Signal.terminate])
          []).exitTime = some (time + 10 * k) := by
  induction k with
  | zero =>
    intro fuel time hf
    cases fuel with
    | zero => omega
    | succ fuel =>
      simp [reminder_worker, arrivedBy, notYetArrived]
  | succ k ih =>
    intro fuel time hf
    cases fuel with
    | zero => omega
    | succ fuel =>
      have h1 := ih fuel (time + 10) (by omega)
      simp only [reminder_worker, List.replicate_succ, List.cons_append,
        List.append_nil, arrivedBy, notYetArrived, List.filter_nil,
        List.map_nil, List.head?_cons, List.tail_cons]
      rw [if_neg (by simp)]
      simp only [List.append_nil] at h1
      rw [h1]
      simp only [Option.some.injEq]
      omega

theorem terminate_exit_position_witness :
    (reminder_worker 5 0
        (List.replicate 2 Signal.refresh ++ [Signal.terminate])
        []).exitTime = some (0 + 10 * 2) :=
  terminate_exit_position 2 5 0 (by decide)

/-- Claim C7: in every producer-loop iteration in which the paused flag
is set at the capture check (after command handling), the producer
makes no blocking stream.read call and puts no frame on the queue; it
sleeps briefly instead and re-checks on the next iteration. -/
theorem producer_paused_no_read (s : CaptureFlags) (cmd : Option String)
    (data : Frame) (hp : (applyCmd s cmd).paused = true) :
    (producerIter s cmd data).2 = ⟨0, [], true⟩ := by
  simp [producerIter, hp]

theorem producer_paused_no_read_witness :
    (producerIter ⟨true, false⟩ none []).2 = ⟨0, [], true⟩ :=
  producer_paused_no_read ⟨true, false⟩ none [] (by decide)

/-- Claim C9: convert_wav_to_mp3 reaches the os.unlink of the original
WAV file exactly when pydub is available, FFmpeg is available, and the
export succeeds; on every failure path — transcoding dependency absent
or transcoder error — the unlink is never executed, so the original WAV
file is preserved. -/
theorem convert_preserves_wav_on_failure (env : ConvEnv) :
    ConvStep.unlinkWav ∈ convert_wav_to_mp3 env ↔
      env.pydubAvailable = true ∧ env.ffmpegAvailable = true ∧
        env.exportOk = true := by
  rcases env with ⟨p, f, e⟩
  cases p <;> cases f <;> cases e <;> decide

/-- Claim C10: for every sha256 function, salt and password, verifying
the (hash, salt) pair produced by hash_password against the original
password succeeds, and verifying it against an arbitrary attempt
succeeds exactly when the salted sha256 digest of the attempt equals
the salted sha256 digest of the original password. -/
theorem hash_verify_roundtrip (sha256hex : String → String)
    (salt password : String) :
    verify_password sha256hex (hash_password sha256hex salt password).1
        (hash_password sha256hex salt password).2 password = true ∧
    ∀ attempt : String,
      (verify_password sha256hex (hash_password sha256hex salt password).1
          (hash_password sha256hex salt password).2 attempt = true ↔
        sha256hex (salt ++ attempt) = sha256hex (salt ++ password)) := by
  constructor
  · simp [verify_password, hash_password]
  · intro attempt
    simp only [verify_password, hash_password, beq_iff_eq]
    constructor
    · intro h
      exact h.symm
    · intro h
      exact h.symm
